import Mathlib

/-!
Shallow embedding of the core of `src/server.js` (the who.cares server):
the hours aggregator `calculateWeightsAndHours`, the source resolver
`fetchRealSources`, the per-fact enrichment `enhanceFacts`, the category
sort, the citation post-pass over `citationMap` / `citationCounter`, and
the `POST /calculate-weight` handler.

JavaScript numbers are modelled as `JSNum`: either `nan` or a rational.
NaN propagation through arithmetic is modelled; infinities are not
(division by zero yields `nan` here; no claim depends on that corner,
every theorem that divides keeps the divisor away from zero).
-/

namespace WhoCares

/-- JS number: `NaN` or a finite value (rationals stand in for doubles). -/
inductive JSNum where
  | nan : JSNum
  | num : ℚ → JSNum
deriving DecidableEq, Repr

/-- JS multiplication: NaN absorbs. -/
def jsMul : JSNum → JSNum → JSNum
  | JSNum.nan, _ => JSNum.nan
  | _, JSNum.nan => JSNum.nan
  | JSNum.num a, JSNum.num b => JSNum.num (a * b)

/-- JS division: NaN absorbs; division by zero is collapsed to `nan`
(JS would give an infinity or NaN; no modelled code path divides by zero). -/
def jsDiv : JSNum → JSNum → JSNum
  | JSNum.nan, _ => JSNum.nan
  | _, JSNum.nan => JSNum.nan
  | JSNum.num a, JSNum.num b => if b = 0 then JSNum.nan else JSNum.num (a / b)

/-- `Math.round` on a finite value: round half toward positive infinity. -/
def jsRoundQ (q : ℚ) : ℤ := ⌊q + 1/2⌋

/-- `Math.round`: `Math.round(NaN)` is `NaN`. -/
def jsRound : JSNum → JSNum
  | JSNum.nan => JSNum.nan
  | JSNum.num q => JSNum.num (jsRoundQ q)

/-- Rendering of a JS number into a template string (decimal formatting of
rationals is abstracted to `toString`). -/
def jsNumToString : JSNum → String
  | JSNum.nan => "NaN"
  | JSNum.num q => toString q

/-- `x.toFixed(1)` (decimal rendering abstracted: we record the value
rounded to tenths as a rational string). -/
def toFixed1 (q : ℚ) : String := toString ((jsRoundQ (q * 10) : ℚ) / 10)

/-- One item of the Google Custom Search response (`searchResponse.data.items`). -/
structure SearchItem where
  title : String
  link : String
  snippet : String
deriving DecidableEq, Repr

/-- A source attached to a fact.  `citation` is absent until the citation
post-pass sets it (`sourceObj.citation = citation`). -/
structure Source where
  title : String
  link : String
  snippet : String
  citation : Option String
deriving DecidableEq, Repr

/-- `{ title: item.title, link: item.link, snippet: item.snippet }`. -/
def mkSource (it : SearchItem) : Source :=
  { title := it.title, link := it.link, snippet := it.snippet, citation := none }

/-- Query parameters of the outbound search call: `q` and `num`. -/
structure SearchParams where
  q : String
  num : ℕ
deriving DecidableEq, Repr

/-- A category as returned by the structured-generation provider
(`WeightSchema`): category, weight, facts (strings), reasoning. -/
structure RawCategory where
  category : String
  weight : ℚ
  facts : List String
  reasoning : String
deriving DecidableEq, Repr

/-- A category after source enrichment: its facts now carry sources
(`{ ...category, facts: enhancedFacts }`). -/
structure EnrichedFact where
  fact : String
  sources : List Source
deriving DecidableEq, Repr

structure EnrichedCategory where
  category : String
  weight : ℚ
  facts : List EnrichedFact
  reasoning : String
deriving DecidableEq, Repr

/-- Result record of `calculateWeightsAndHours`. -/
structure AggResult where
  enrichedCategories : List EnrichedCategory
  totalHours : JSNum
  totalHoursDescription : String
deriving Repr

/-- The `totalWeight` accumulated by the single pass of
`calculateWeightsAndHours` over its categories. -/
def totalWeightOf (categories : List EnrichedCategory) : ℚ :=
  categories.foldl (fun t c => t + c.weight) 0

/-- The `relevanceModifier` set by the same pass: each "Personal Relevance"
category overwrites it with `1 + weight/10`, so the last one seen wins. -/
def relevanceModifierOf (categories : List EnrichedCategory) : ℚ :=
  categories.foldl
    (fun m c => if c.category == "Personal Relevance" then 1 + c.weight / 10 else m) 1

/-- `averageWeight = totalWeight / categories.length`. -/
def averageWeightOf (categories : List EnrichedCategory) : ℚ :=
  totalWeightOf categories / (categories.length : ℚ)

/-- `calculateWeightsAndHours(categories, daysPerYear)` from src/server.js:
`totalAvailableHours = daysPerYear * 24`; one pass over the categories
accumulates `totalWeight` and sets `relevanceModifier = 1 + weight/10` on
each "Personal Relevance" category (last one seen wins; the single JS pass
is split here into the two independent folds above, same accumulators);
`averageWeight = totalWeight / categories.length`;
`totalHours = Math.round((averageWeight/10) * (totalAvailableHours/5) * relevanceModifier)`.
The `enrichedCategories` map copies each category with its own weight, i.e.
is the identity on the modelled fields. -/
def calculateWeightsAndHours (categories : List EnrichedCategory)
    (daysPerYear : JSNum) : AggResult :=
  let totalAvailableHours := jsMul daysPerYear (JSNum.num 24)
  let relevanceModifier := relevanceModifierOf categories
  let averageWeight := averageWeightOf categories
  let totalHours := jsRound (jsMul
    (jsMul (JSNum.num (averageWeight / 10)) (jsDiv totalAvailableHours (JSNum.num 5)))
    (JSNum.num relevanceModifier))
  let modifiedDescription :=
    if 1 < relevanceModifier then
      " times personal relevance modifier " ++ toString relevanceModifier ++ " "
    else ""
  let totalHoursDescription :=
    "Calculated total hours (" ++ jsNumToString totalHours ++
    ") based on an average AI-generated weight of " ++ toFixed1 averageWeight ++
    modifiedDescription ++ " across " ++ toString categories.length ++
    " categories and " ++ jsNumToString totalAvailableHours ++
    " total available hours."
  { enrichedCategories := categories
    totalHours := totalHours
    totalHoursDescription := totalHoursDescription }

/-- The spec side of C2, stated from the words of the spec (section 4.5):
`averageWeight` = sum of all weights / category count (Personal Relevance
included in both), `relevanceModifier` = `1 + w/10` when a Personal
Relevance category with weight `w` is present (last-seen takes effect),
else `1`, and
`totalHours = round((averageWeight/10) * ((daysPerYear*24)/5) * relevanceModifier)`. -/
def specHoursAggregator (cats : List EnrichedCategory) (daysPerYear : ℚ) : ℤ :=
  let averageWeight := (cats.map (·.weight)).sum / (cats.length : ℚ)
  let relevanceModifier :=
    match ((cats.filter (fun c => c.category == "Personal Relevance")).map
      (·.weight)).getLast? with
    | some w => 1 + w / 10
    | none => 1
  jsRoundQ ((averageWeight / 10) * ((daysPerYear * 24) / 5) * relevanceModifier)

/-- `Array.prototype.indexOf` on a list of strings: index of the first
occurrence, `-1` when absent. -/
def jsIndexOf (l : List String) (s : String) : ℤ :=
  match l.findIdx? (fun t => t == s) with
  | some i => (i : ℤ)
  | none => -1

/-- The fixed display order (src/server.js line 151). -/
def sortOrder : List String :=
  ["Statistical Impact", "Social Relevance", "Policy Impact Potential",
   "Personal Relevance"]

/-- Sort key of the comparator
`sortOrder.indexOf(a.category) - sortOrder.indexOf(b.category)`. -/
def catKey (c : RawCategory) : ℤ := jsIndexOf sortOrder c.category

/-- The ordering induced by that comparator. -/
def catLE (a b : RawCategory) : Prop := catKey a ≤ catKey b

instance : DecidableRel catLE := fun a b =>
  inferInstanceAs (Decidable (catKey a ≤ catKey b))

instance : IsTotal RawCategory catLE := ⟨fun a b => le_total (catKey a) (catKey b)⟩

instance : IsTrans RawCategory catLE := ⟨fun _ _ _ => le_trans⟩

/-- `response.data.sort((a, b) => sortOrder.indexOf(a.category) - sortOrder.indexOf(b.category))`.
JS `Array.prototype.sort` is stable and, under this consistent comparator,
produces the list sorted ascending by `catKey`; modelled by stable
insertion sort. -/
def sortCategories (l : List RawCategory) : List RawCategory :=
  List.insertionSort catLE l

/-- The answer of the external search provider to one outbound call:
a transport or provider error, or the list of result items
(`searchResponse.data.items`; an absent `items` is the empty list). -/
abbrev SearchOracle := SearchParams → Except Unit (List SearchItem)

/-- `fetchRealSources(fact)`: one GET with params `{q: fact, num: 3}`;
maps each item to `{title, link, snippet}`; the catch block turns any
error into the empty list. -/
def fetchRealSources (oracle : SearchOracle) (fact : String) : List Source :=
  match oracle { q := fact, num := 3 } with
  | Except.ok items => items.map mkSource
  | Except.error _ => []

/-- JS template interpolation of the request's optional `year`:
an absent field is `undefined` and stringifies to `"undefined"`. -/
def renderYear : Option ℤ → String
  | some y => toString y
  | none => "undefined"

/-- The query actually sent for a fact: `fact + ` ${year}`` (the year is
appended unconditionally). -/
def buildQuery (fact : String) (year : Option ℤ) : String :=
  fact ++ " " ++ renderYear year

/-- `enhanceFacts(facts)`: per fact, `{ fact, sources: await fetchRealSources(fact + ` ${year}`) }`;
`facts.map` + `Promise.all` keeps the results in fact order regardless of
completion order. -/
def enhanceFacts (oracle : SearchOracle) (year : Option ℤ)
    (facts : List String) : List EnrichedFact :=
  facts.map (fun fact =>
    { fact := fact, sources := fetchRealSources oracle (buildQuery fact year) })

/-- `{ ...category, facts: enhancedFacts }`. -/
def enhanceCategory (oracle : SearchOracle) (year : Option ℤ)
    (c : RawCategory) : EnrichedCategory :=
  { category := c.category, weight := c.weight,
    facts := enhanceFacts oracle year c.facts, reasoning := c.reasoning }

/-- Truthiness of `sourceObj.link`: a non-empty string. -/
def hasLink (s : Source) : Bool := !(s.link == "")

/-- The citation text `` `[${citationCounter}]` ``. -/
def citeLabel (n : ℕ) : String := "[" ++ toString n ++ "]"

/-- The citation post-pass (src/server.js lines 224-231) restricted to one
run of consecutive sources: threads `citationCounter`, and for every source
with a truthy `link` sets `sourceObj.citation` and inserts the (mutated,
aliased) source into `citationMap` under the current counter.  Returns the
updated sources, the map entries in insertion order, and the counter. -/
def citeSourceList : ℕ → List Source → List Source × List (ℕ × Source) × ℕ
  | n, [] => ([], [], n)
  | n, s :: rest =>
    if hasLink s then
      let s2 := { s with citation := some (citeLabel n) }
      let r := citeSourceList (n + 1) rest
      (s2 :: r.1, (n, s2) :: r.2.1, r.2.2)
    else
      let r := citeSourceList n rest
      (s :: r.1, r.2.1, r.2.2)

/-- The post-pass over the facts of one category, in fact order. -/
def citeFactList : ℕ → List EnrichedFact → List EnrichedFact × List (ℕ × Source) × ℕ
  | n, [] => ([], [], n)
  | n, f :: rest =>
    let rs := citeSourceList n f.sources
    let rr := citeFactList rs.2.2 rest
    ({ fact := f.fact, sources := rs.1 } :: rr.1, rs.2.1 ++ rr.2.1, rr.2.2)

/-- The whole post-pass: the JS `flatMap(..).flatMap(..).forEach` visits
the sources in category order, then fact order, then source order, which is
exactly this counter-threading traversal of the nested structure (the JS
mutates the shared source objects in place; here the updated structure is
returned alongside the `citationMap` entries). -/
def citeCategoryList : ℕ → List EnrichedCategory →
    List EnrichedCategory × List (ℕ × Source) × ℕ
  | n, [] => ([], [], n)
  | n, c :: rest =>
    let rf := citeFactList n c.facts
    let rr := citeCategoryList rf.2.2 rest
    ({ category := c.category, weight := c.weight, facts := rf.1,
       reasoning := c.reasoning } :: rr.1, rf.2.1 ++ rr.2.1, rr.2.2)

/-- `enhancedData.flatMap(data => data.facts).flatMap(fact => fact.sources)`:
the fixed traversal order of all sources. -/
def flatSources (cats : List EnrichedCategory) : List Source :=
  (cats.flatMap (·.facts)).flatMap (·.sources)

/-- The closed form of the citation map: consecutive ids from `n` over a
list of sources, each entry carrying the source with its citation set. -/
def taggedFrom : ℕ → List Source → List (ℕ × Source)
  | _, [] => []
  | n, s :: rest =>
    (n, { s with citation := some (citeLabel n) }) :: taggedFrom (n + 1) rest

/-- One entry of `combinedSources`: `value.source` and
`value.ground_news_link` are not fields of the stored search-result
objects in this variant, hence `undefined` (`none`). -/
structure CombinedSource where
  citation : String
  source : Option String
  ground_news_link : Option String
deriving DecidableEq, Repr

/-- `Array.from(citationMap.entries()).map(([key, value]) => ({citation: `[${key}]`, ...}))`;
`Map` iteration follows insertion order, which is ascending id order. -/
def combinedSources (cmap : List (ℕ × Source)) : List CombinedSource :=
  cmap.map (fun p =>
    { citation := "[" ++ toString p.1 ++ "]", source := none,
      ground_news_link := none })

/-- The body of `POST /calculate-weight` (`req.body`); absent fields are
`undefined`, modelled as `none`. -/
structure Request where
  topic : Option String
  personalImpact : Option String
  biasPreference : Option String
  year : Option ℤ
  daysPerYear : Option ℚ
deriving DecidableEq, Repr

/-- An absent numeric body field is `undefined`; arithmetic on it yields NaN. -/
def jsNumOfOpt : Option ℚ → JSNum
  | some d => JSNum.num d
  | none => JSNum.nan

/-- Whitespace for `String.prototype.trim` (the common subset; JS also
trims a few exotic code points that never matter here). -/
def isJsWhitespace (c : Char) : Bool :=
  c == ' ' || c == '\t' || c == '\n' || c == '\r'

/-- `topic.trim()`. -/
def jsTrim (s : String) : String :=
  String.mk (((s.data.dropWhile isJsWhitespace).reverse.dropWhile
    isJsWhitespace).reverse)

/-- The guard `!topic || topic.trim().length === 0`: `undefined` and the
empty string are falsy, otherwise the trimmed length is tested. -/
def isBlankTopic : Option String → Bool
  | none => true
  | some s => s == "" || (jsTrim s).length == 0

/-- One value of the `res.json` object literal of the 200 response. -/
inductive ResponseField where
  | weights : List EnrichedCategory → ResponseField
  | hours : JSNum → ResponseField
  | text : String → ResponseField
deriving DecidableEq

/-- The three ways the handler answers: 400 and 500 carry `{error: message}`,
200 carries the `res.json` object literal as an ordered key-value list. -/
inductive HttpResult where
  | badRequest : String → HttpResult
  | serverError : String → HttpResult
  | ok : List (String × ResponseField) → HttpResult
deriving DecidableEq

def isOk : HttpResult → Bool
  | HttpResult.ok _ => true
  | _ => false

def bodyOf : HttpResult → List (String × ResponseField)
  | HttpResult.ok body => body
  | _ => []

/-- The keys of a 200 response body. -/
def responseKeys (r : HttpResult) : List String := (bodyOf r).map Prod.fst

/-- An outbound call made while handling the request. -/
inductive ExtCall where
  | llm : ExtCall
  | search : SearchParams → ExtCall
deriving DecidableEq, Repr

/-- The structured-generation call: either a thrown transport error or a
missing/unparsed payload (both land in the catch block as a 500), or the
parsed `response.data`. -/
abbrev GenResult := Except Unit (List RawCategory)

/-- The `analysisSummary` template (surrounding template whitespace
abstracted): the hours description plus one `category: weight/10` item per
category of the sorted data. -/
def analysisSummary (totalHoursDescription : String)
    (data : List RawCategory) : String :=
  totalHoursDescription ++ " Key Insights: " ++
    String.intercalate ", "
      (data.map (fun w => w.category ++ ": " ++ toString w.weight ++ "/10")) ++ "."

/-- The `POST /calculate-weight` handler, given the provider answers:
validate the topic (400 before any external call), call the generation
provider (500 on failure), sort the categories, fan out the per-fact
search lookups, run the citation post-pass, aggregate the hours, build
`combinedSources` (dead: it is not part of the response), and answer 200
with `{weights, totalHours, totalHoursDescription, analysisContext}`.
The second component lists the outbound calls actually made. -/
def handleCalculateWeight (req : Request) (gen : GenResult)
    (oracle : SearchOracle) : HttpResult × List ExtCall :=
  if isBlankTopic req.topic then
    (HttpResult.badRequest "Topic input is required.", [])
  else
    match gen with
    | Except.error _ =>
      (HttpResult.serverError "Failed to calculate topic weight.", [ExtCall.llm])
    | Except.ok data =>
      let sorted := sortCategories data
      let enhancedData := sorted.map (enhanceCategory oracle req.year)
      let cited := citeCategoryList 1 enhancedData
      let agg := calculateWeightsAndHours cited.1 (jsNumOfOpt req.daysPerYear)
      let _combined := combinedSources cited.2.1
      let summary := analysisSummary agg.totalHoursDescription sorted
      let calls := ExtCall.llm :: sorted.flatMap (fun c =>
        c.facts.map (fun f =>
          ExtCall.search { q := buildQuery f req.year, num := 3 }))
      (HttpResult.ok
        [("weights", ResponseField.weights cited.1),
         ("totalHours", ResponseField.hours agg.totalHours),
         ("totalHoursDescription", ResponseField.text agg.totalHoursDescription),
         ("analysisContext", ResponseField.text summary)], calls)

/-! Concrete values used by witnesses and counterexamples. -/

/-- The first worked example of the spec (section 8). -/
def exampleCats : List EnrichedCategory :=
  [ { category := "Statistical Impact", weight := 8, facts := [],
      reasoning := "r" },
    { category := "Social Relevance", weight := 6, facts := [],
      reasoning := "r" },
    { category := "Policy Impact Potential", weight := 4, facts := [],
      reasoning := "r" } ]

/-- The second worked example: the same set plus Personal Relevance 5. -/
def exampleCatsPR : List EnrichedCategory :=
  exampleCats ++
    [ { category := "Personal Relevance", weight := 5, facts := [],
        reasoning := "r" } ]

/-- One category, one fact, two sources sharing a link. -/
def dupLinkCats : List EnrichedCategory :=
  [ { category := "Statistical Impact", weight := 8,
      facts := [ { fact := "f1",
                   sources := [ { title := "t1", link := "https://example.com/a",
                                  snippet := "s1", citation := none },
                                { title := "t2", link := "https://example.com/a",
                                  snippet := "s2", citation := none } ] } ],
      reasoning := "r" } ]

/-- The four categories in reverse canonical order. -/
def demoShuffled : List RawCategory :=
  [ { category := "Personal Relevance", weight := 5, facts := [],
      reasoning := "r" },
    { category := "Policy Impact Potential", weight := 4, facts := [],
      reasoning := "r" },
    { category := "Social Relevance", weight := 6, facts := [],
      reasoning := "r" },
    { category := "Statistical Impact", weight := 8, facts := [],
      reasoning := "r" } ]

/-- A request with a valid topic and no optional fields. -/
def demoReq : Request :=
  { topic := some "gun control", personalImpact := none, biasPreference := none,
    year := none, daysPerYear := some 10 }

/-- A provider answer with one category and one fact. -/
def demoData : List RawCategory :=
  [ { category := "Statistical Impact", weight := 8, facts := ["f1"],
      reasoning := "r" } ]

/-- The demo request with the `daysPerYear` field missing. -/
def demoReqNoDays : Request :=
  { topic := some "gun control", personalImpact := none, biasPreference := none,
    year := none, daysPerYear := none }

/-- A category carrying two facts. -/
def demoCat2 : RawCategory :=
  { category := "Statistical Impact", weight := 8, facts := ["f1", "f2"],
    reasoning := "r" }

/-- A provider answer with one category carrying two facts. -/
def demoData2 : List RawCategory := [demoCat2]

/-- The single item answered by the mixed demo oracle. -/
def demoItems : List SearchItem :=
  [ { title := "t", link := "https://example.com/x", snippet := "s" } ]

/-- A search provider that always fails. -/
def demoErrOracle : SearchOracle := fun _ => Except.error ()

/-- A search provider that fails on the first demo query and answers the
rest with one fixed item. -/
def demoMixedOracle : SearchOracle := fun p =>
  if p.q == "f1 undefined" then Except.error () else Except.ok demoItems

/-! ## Helper lemmas about the aggregator -/

theorem foldl_add_weights (l : List EnrichedCategory) (a : ℚ) :
    l.foldl (fun t c => t + c.weight) a = a + (l.map (·.weight)).sum := by
  induction l generalizing a with
  | nil => simp
  | cons c t ih => simp [List.foldl_cons, ih, add_assoc]

theorem totalWeightOf_eq_sum (l : List EnrichedCategory) :
    totalWeightOf l = (l.map (·.weight)).sum := by
  simp [totalWeightOf, foldl_add_weights]

theorem foldl_if_eq_filter (l : List EnrichedCategory) (m : ℚ) :
    l.foldl
      (fun acc c => if c.category == "Personal Relevance"
        then 1 + c.weight / 10 else acc) m
    = (l.filter (fun c => c.category == "Personal Relevance")).foldl
        (fun _ c => 1 + c.weight / 10) m := by
  induction l generalizing m with
  | nil => rfl
  | cons c t ih =>
    simp only [beq_iff_eq] at ih ⊢
    by_cases h : c.category = "Personal Relevance" <;>
      simp [List.foldl_cons, List.filter_cons, h, ih]

theorem foldl_lastwins (xs : List EnrichedCategory) (m : ℚ) :
    xs.foldl (fun _ c => 1 + c.weight / 10) m
    = match xs.getLast? with
      | some c => 1 + c.weight / 10
      | none => m := by
  induction xs generalizing m with
  | nil => rfl
  | cons x t ih =>
    cases t with
    | nil => rfl
    | cons y t2 =>
      rw [List.foldl_cons, ih, List.getLast?_cons_cons]
      cases hl : (y :: t2).getLast? with
      | some c => rfl
      | none => simp at hl

theorem relevanceModifierOf_eq_getLast (l : List EnrichedCategory) :
    relevanceModifierOf l
    = match ((l.filter (fun c => c.category == "Personal Relevance")).map
        (·.weight)).getLast? with
      | some w => 1 + w / 10
      | none => 1 := by
  rw [relevanceModifierOf, foldl_if_eq_filter, foldl_lastwins,
    List.getLast?_map]
  cases (l.filter (fun c => c.category == "Personal Relevance")).getLast? <;> rfl

theorem totalHours_num (cats : List EnrichedCategory) (d : ℚ) :
    (calculateWeightsAndHours cats (JSNum.num d)).totalHours
    = JSNum.num ((jsRoundQ ((averageWeightOf cats / 10) * ((d * 24) / 5)
        * relevanceModifierOf cats) : ℤ) : ℚ) := by
  have h5 : (5 : ℚ) ≠ 0 := by norm_num
  simp [calculateWeightsAndHours, jsMul, jsDiv, jsRound, h5]

theorem totalHours_nan (cats : List EnrichedCategory) :
    (calculateWeightsAndHours cats JSNum.nan).totalHours = JSNum.nan := by
  simp [calculateWeightsAndHours, jsMul, jsDiv, jsRound]

theorem jsRoundQ_nonneg {q : ℚ} (h : 0 ≤ q) : 0 ≤ jsRoundQ q := by
  rw [jsRoundQ]
  rw [Int.le_floor]
  push_cast
  linarith

theorem jsRoundQ_mono {a b : ℚ} (h : a ≤ b) : jsRoundQ a ≤ jsRoundQ b := by
  exact Int.floor_le_floor (by linarith)

theorem averageWeightOf_nonneg (cats : List EnrichedCategory)
    (hw : ∀ c ∈ cats, 1 ≤ c.weight ∧ c.weight ≤ 10) :
    0 ≤ averageWeightOf cats := by
  rw [averageWeightOf, totalWeightOf_eq_sum]
  apply div_nonneg
  · apply List.sum_nonneg
    intro x hx
    rcases List.mem_map.mp hx with ⟨c, hc, hcx⟩
    have := (hw c hc).1
    linarith [hcx ▸ this]
  · positivity

theorem relevanceModifierOf_nonneg (cats : List EnrichedCategory)
    (hw : ∀ c ∈ cats, 1 ≤ c.weight ∧ c.weight ≤ 10) :
    0 ≤ relevanceModifierOf cats := by
  rw [relevanceModifierOf_eq_getLast]
  cases hl : ((cats.filter (fun c => c.category == "Personal Relevance")).map
      (·.weight)).getLast? with
  | none => norm_num
  | some w =>
    have hmem := List.mem_of_mem_getLast? hl
    rcases List.mem_map.mp hmem with ⟨c, hc, hcw⟩
    have hcats : c ∈ cats := List.mem_of_mem_filter hc
    have h1 : (1 : ℚ) ≤ w := hcw ▸ (hw c hcats).1
    show (0 : ℚ) ≤ 1 + w / 10
    linarith

/-- **C2.** The aggregator computes exactly the totalHours formula of the
spec: `round((averageWeight/10) × ((daysPerYear×24)/5) × relevanceModifier)`
with the average over all categories (Personal Relevance included in sum
and divisor) and the modifier `1 + w/10` when a Personal Relevance
category with weight `w` is present (last-seen, per section 4.5), else 1;
and the two worked examples evaluate to 29 and 41. -/
theorem C2_totalHours_matches_spec (cats : List EnrichedCategory) (d : ℚ)
    (hne : cats ≠ [])
    (hw : ∀ c ∈ cats, 1 ≤ c.weight ∧ c.weight ≤ 10) :
    (calculateWeightsAndHours cats (JSNum.num d)).totalHours
      = JSNum.num ((specHoursAggregator cats d : ℤ) : ℚ) ∧
    (calculateWeightsAndHours exampleCats (JSNum.num 10)).totalHours
      = JSNum.num 29 ∧
    (calculateWeightsAndHours exampleCatsPR (JSNum.num 10)).totalHours
      = JSNum.num 41 := by
  refine ⟨?_, ?_, ?_⟩
  · rw [totalHours_num, specHoursAggregator]
    rw [averageWeightOf, totalWeightOf_eq_sum, relevanceModifierOf_eq_getLast]
  · simp +decide only [calculateWeightsAndHours, relevanceModifierOf,
      averageWeightOf, totalWeightOf, exampleCats, jsMul, jsDiv, jsRound,
      jsRoundQ, List.foldl]
    norm_num
  · simp +decide only [calculateWeightsAndHours, relevanceModifierOf,
      averageWeightOf, totalWeightOf, exampleCatsPR, exampleCats, jsMul,
      jsDiv, jsRound, jsRoundQ, List.foldl, List.cons_append,
      List.nil_append]
    norm_num

/-- Witness for C2 at the first worked example. -/
theorem C2_totalHours_matches_spec_witness :
    (calculateWeightsAndHours exampleCats (JSNum.num 10)).totalHours
      = JSNum.num ((specHoursAggregator exampleCats 10 : ℤ) : ℚ) ∧
    (calculateWeightsAndHours exampleCats (JSNum.num 10)).totalHours
      = JSNum.num 29 ∧
    (calculateWeightsAndHours exampleCatsPR (JSNum.num 10)).totalHours
      = JSNum.num 41 :=
  C2_totalHours_matches_spec exampleCats 10 (by simp [exampleCats])
    (by intro c hc; fin_cases hc <;> norm_num [exampleCats])

/-- **C6.** For weights in [1,10] and positive daysPerYear the aggregator
totalHours is a non-negative integer, and it is monotonically
non-decreasing in daysPerYear with the categories held fixed. -/
theorem C6_totalHours_nonneg_mono (cats : List EnrichedCategory)
    (d1 d2 : ℚ) (hne : cats ≠ [])
    (hw : ∀ c ∈ cats, 1 ≤ c.weight ∧ c.weight ≤ 10)
    (hd : 0 < d1) (hle : d1 ≤ d2) :
    ∃ h1 h2 : ℤ,
      (calculateWeightsAndHours cats (JSNum.num d1)).totalHours
        = JSNum.num (h1 : ℚ) ∧
      (calculateWeightsAndHours cats (JSNum.num d2)).totalHours
        = JSNum.num (h2 : ℚ) ∧
      0 ≤ h1 ∧ h1 ≤ h2 := by
  have havg := averageWeightOf_nonneg cats hw
  have hmod := relevanceModifierOf_nonneg cats hw
  set A := averageWeightOf cats with hA
  set M := relevanceModifierOf cats with hM
  have hK : 0 ≤ A / 10 * (24 / 5) * M := by positivity
  have hrw : ∀ d : ℚ, A / 10 * ((d * 24) / 5) * M
      = (A / 10 * (24 / 5) * M) * d := by intro d; ring
  refine ⟨jsRoundQ (A / 10 * ((d1 * 24) / 5) * M),
    jsRoundQ (A / 10 * ((d2 * 24) / 5) * M),
    totalHours_num cats d1, totalHours_num cats d2, ?_, ?_⟩
  · apply jsRoundQ_nonneg
    rw [hrw]
    exact mul_nonneg hK (le_of_lt hd)
  · apply jsRoundQ_mono
    rw [hrw, hrw]
    exact mul_le_mul_of_nonneg_left hle hK

/-- Witness for C6 at the first worked example with daysPerYear 10 ≤ 20. -/
theorem C6_totalHours_nonneg_mono_witness :
    ∃ h1 h2 : ℤ,
      (calculateWeightsAndHours exampleCats (JSNum.num 10)).totalHours
        = JSNum.num (h1 : ℚ) ∧
      (calculateWeightsAndHours exampleCats (JSNum.num 20)).totalHours
        = JSNum.num (h2 : ℚ) ∧
      0 ≤ h1 ∧ h1 ≤ h2 :=
  C6_totalHours_nonneg_mono exampleCats 10 20 (by simp [exampleCats])
    (by intro c hc; fin_cases hc <;> norm_num [exampleCats])
    (by norm_num) (by norm_num)

/-! ## Handler-level theorems -/

/-- **C10.** The handler validates only the topic: with a non-empty topic a
missing daysPerYear is never rejected with a 400 — processing proceeds
through the external calls and the response is a 200 whose totalHours is
NaN rather than a non-negative integer. -/
theorem C10_missing_daysPerYear_nan (req : Request) (data : List RawCategory)
    (oracle : SearchOracle) (hb : isBlankTopic req.topic = false)
    (hd : req.daysPerYear = none) :
    isOk (handleCalculateWeight req (Except.ok data) oracle).1 = true ∧
    ("totalHours", ResponseField.hours JSNum.nan)
      ∈ bodyOf (handleCalculateWeight req (Except.ok data) oracle).1 ∧
    ExtCall.llm ∈ (handleCalculateWeight req (Except.ok data) oracle).2 := by
  simp [handleCalculateWeight, hb, hd, jsNumOfOpt, totalHours_nan, isOk,
    bodyOf]

/-- Witness for C10 at the demo request without daysPerYear. -/
theorem C10_missing_daysPerYear_nan_witness :
    isOk (handleCalculateWeight demoReqNoDays (Except.ok demoData)
      demoErrOracle).1 = true ∧
    ("totalHours", ResponseField.hours JSNum.nan)
      ∈ bodyOf (handleCalculateWeight demoReqNoDays (Except.ok demoData)
        demoErrOracle).1 ∧
    ExtCall.llm ∈ (handleCalculateWeight demoReqNoDays (Except.ok demoData)
      demoErrOracle).2 :=
  C10_missing_daysPerYear_nan demoReqNoDays demoData demoErrOracle
    (by decide) (by decide)

/-- **C8.** A missing, empty, or whitespace-only topic is answered with 400
and the fixed error body before any external call is made. -/
theorem C8_blank_topic_rejected (req : Request) (gen : GenResult)
    (oracle : SearchOracle)
    (h : req.topic = none ∨
      ∃ s, req.topic = some s ∧ s.data.all isJsWhitespace = true) :
    handleCalculateWeight req gen oracle
      = (HttpResult.badRequest "Topic input is required.", []) := by
  have hb : isBlankTopic req.topic = true := by
    rcases h with h | ⟨s, hs, hws⟩
    · rw [h]; rfl
    · rw [hs]
      have htrim : s.data.dropWhile isJsWhitespace = [] := by
        rw [List.dropWhile_eq_nil_iff]
        exact fun x hx => (List.all_eq_true.mp hws) x hx
      have : jsTrim s = String.mk [] := by
        rw [jsTrim, htrim]
        rfl
      simp [isBlankTopic, this]
  simp [handleCalculateWeight, hb]

/-- Witness for C8 at a whitespace-only topic. -/
theorem C8_blank_topic_rejected_witness :
    handleCalculateWeight
      { topic := some "   ", personalImpact := none, biasPreference := none,
        year := none, daysPerYear := some 10 }
      (Except.error ()) demoErrOracle
      = (HttpResult.badRequest "Topic input is required.", []) :=
  C8_blank_topic_rejected _ _ _ (Or.inr ⟨"   ", rfl, by decide⟩)

/-- **C7.** A failed source lookup for one fact does not raise: that fact
gets an empty sources list, sibling facts still get their resolved
sources, and the request still completes with a 200. -/
theorem C7_lookup_failure_isolated (req : Request) (data : List RawCategory)
    (oracle : SearchOracle) (c : RawCategory) (f g : String)
    (items : List SearchItem)
    (hb : isBlankTopic req.topic = false)
    (hc : c ∈ data) (hf : f ∈ c.facts) (hg : g ∈ c.facts)
    (hfail : oracle { q := buildQuery f req.year, num := 3 }
      = Except.error ())
    (hok : oracle { q := buildQuery g req.year, num := 3 }
      = Except.ok items) :
    isOk (handleCalculateWeight req (Except.ok data) oracle).1 = true ∧
    { fact := f, sources := [] } ∈ enhanceFacts oracle req.year c.facts ∧
    { fact := g, sources := items.map mkSource }
      ∈ enhanceFacts oracle req.year c.facts := by
  refine ⟨?_, ?_, ?_⟩
  · simp [handleCalculateWeight, hb, isOk]
  · rw [enhanceFacts]
    refine List.mem_map.mpr ⟨f, hf, ?_⟩
    simp [fetchRealSources, hfail]
  · rw [enhanceFacts]
    refine List.mem_map.mpr ⟨g, hg, ?_⟩
    simp [fetchRealSources, hok]

/-- Witness for C7: the mixed demo oracle fails on fact f1 and answers f2. -/
theorem C7_lookup_failure_isolated_witness :
    isOk (handleCalculateWeight demoReq (Except.ok demoData2)
      demoMixedOracle).1 = true ∧
    { fact := "f1", sources := [] }
      ∈ enhanceFacts demoMixedOracle demoReq.year demoCat2.facts ∧
    { fact := "f2", sources := demoItems.map mkSource }
      ∈ enhanceFacts demoMixedOracle demoReq.year demoCat2.facts :=
  C7_lookup_failure_isolated demoReq demoData2 demoMixedOracle
    demoCat2 "f1" "f2" demoItems (by decide)
    (by simp [demoData2]) (by simp [demoCat2]) (by simp [demoCat2])
    (by rfl) (by rfl)

/-- **C3 (amended).** Every 200 response of the handler carries exactly the
keys weights, totalHours, totalHoursDescription and analysisContext: no
sources field is included (combinedSources is computed from the citation
map but discarded). -/
theorem C3_response_keys (req : Request) (data : List RawCategory)
    (oracle : SearchOracle) (hb : isBlankTopic req.topic = false) :
    responseKeys (handleCalculateWeight req (Except.ok data) oracle).1
      = ["weights", "totalHours", "totalHoursDescription",
         "analysisContext"] ∧
    "sources" ∉
      responseKeys (handleCalculateWeight req (Except.ok data) oracle).1 := by
  constructor
  · simp [handleCalculateWeight, hb, responseKeys, bodyOf]
  · simp [handleCalculateWeight, hb, responseKeys, bodyOf]

/-- Witness for C3 (amended) at the demo request. -/
theorem C3_response_keys_witness :
    responseKeys (handleCalculateWeight demoReq (Except.ok demoData)
      demoErrOracle).1
      = ["weights", "totalHours", "totalHoursDescription",
         "analysisContext"] ∧
    "sources" ∉
      responseKeys (handleCalculateWeight demoReq (Except.ok demoData)
        demoErrOracle).1 :=
  C3_response_keys demoReq demoData demoErrOracle (by decide)

/-- **C3 counterexample.** A concrete successful (200) response whose body
contains no sources field, refuting the claim that every 200 response
contains one. -/
theorem C3_no_sources_field_cx :
    isOk (handleCalculateWeight demoReq (Except.ok demoData)
      demoErrOracle).1 = true ∧
    "sources" ∉
      responseKeys (handleCalculateWeight demoReq (Except.ok demoData)
        demoErrOracle).1 := by
  have hb : isBlankTopic demoReq.topic = false := by decide
  constructor
  · simp [handleCalculateWeight, hb, isOk]
  · simp [handleCalculateWeight, hb, responseKeys, bodyOf]

/-! ## The citation post-pass -/

theorem taggedFrom_append (xs ys : List Source) (n : ℕ) :
    taggedFrom n (xs ++ ys)
      = taggedFrom n xs ++ taggedFrom (n + xs.length) ys := by
  induction xs generalizing n with
  | nil => simp [taggedFrom]
  | cons s t ih =>
    have h : n + 1 + t.length = n + (t.length + 1) := by omega
    simp [taggedFrom, ih, h]

theorem taggedFrom_map_fst (ss : List Source) (n : ℕ) :
    (taggedFrom n ss).map Prod.fst = List.range' n ss.length := by
  induction ss generalizing n with
  | nil => simp [taggedFrom]
  | cons s t ih => simp [taggedFrom, ih, List.range']

theorem hasLink_set_citation (s : Source) (c : Option String) :
    hasLink { s with citation := c } = hasLink s := rfl

theorem citeSourceList_spec (ss : List Source) (n : ℕ) :
    (citeSourceList n ss).2.1 = taggedFrom n (ss.filter hasLink) ∧
    (citeSourceList n ss).2.2 = n + ss.countP hasLink ∧
    (citeSourceList n ss).1.filter (fun s => !(hasLink s))
      = ss.filter (fun s => !(hasLink s)) := by
  induction ss generalizing n with
  | nil => simp [citeSourceList, taggedFrom]
  | cons s t ih =>
    obtain ⟨ih1, ih2, ih3⟩ := ih (n + 1)
    obtain ⟨ih1n, ih2n, ih3n⟩ := ih n
    cases h : hasLink s with
    | true =>
      refine ⟨?_, ?_, ?_⟩
      · simp [citeSourceList, h, List.filter_cons, taggedFrom, ih1]
      · simp [citeSourceList, h, List.countP_cons, ih2]
        omega
      · simp [citeSourceList, h, List.filter_cons, hasLink_set_citation,
          ih3]
    | false =>
      refine ⟨?_, ?_, ?_⟩
      · simp [citeSourceList, h, List.filter_cons, ih1n]
      · simp [citeSourceList, h, List.countP_cons, ih2n]
      · simp [citeSourceList, h, List.filter_cons, ih3n]

theorem citeFactList_spec (fs : List EnrichedFact) (n : ℕ) :
    (citeFactList n fs).2.1
      = taggedFrom n ((fs.flatMap (·.sources)).filter hasLink) ∧
    (citeFactList n fs).2.2 = n + (fs.flatMap (·.sources)).countP hasLink ∧
    ((citeFactList n fs).1.flatMap (·.sources)).filter (fun s => !(hasLink s))
      = (fs.flatMap (·.sources)).filter (fun s => !(hasLink s)) := by
  induction fs generalizing n with
  | nil => simp [citeFactList, taggedFrom]
  | cons f t ih =>
    obtain ⟨hs1, hs2, hs3⟩ := citeSourceList_spec f.sources n
    obtain ⟨ih1, ih2, ih3⟩ := ih (citeSourceList n f.sources).2.2
    rw [hs2] at ih1 ih2 ih3
    have hlen : n + List.countP hasLink f.sources
        = n + (List.filter hasLink f.sources).length := by
      rw [List.countP_eq_length_filter]
    refine ⟨?_, ?_, ?_⟩
    · simp only [citeFactList, hs1, hs2, List.flatMap_cons,
        List.filter_append, taggedFrom_append]
      simp only [← List.countP_eq_length_filter]
      rw [ih1]
    · simp only [citeFactList, hs2, ih2, List.flatMap_cons,
        List.countP_append]
      omega
    · simp only [citeFactList, hs3, hs2, ih3, List.flatMap_cons,
        List.filter_append]

theorem flatSources_cons (c : EnrichedCategory) (rest : List EnrichedCategory) :
    flatSources (c :: rest)
      = c.facts.flatMap (·.sources) ++ flatSources rest := by
  simp [flatSources]

theorem citeCategoryList_spec (cats : List EnrichedCategory) (n : ℕ) :
    (citeCategoryList n cats).2.1
      = taggedFrom n ((flatSources cats).filter hasLink) ∧
    (citeCategoryList n cats).2.2 = n + (flatSources cats).countP hasLink ∧
    (flatSources (citeCategoryList n cats).1).filter (fun s => !(hasLink s))
      = (flatSources cats).filter (fun s => !(hasLink s)) := by
  induction cats generalizing n with
  | nil => simp [citeCategoryList, taggedFrom, flatSources]
  | cons c rest ih =>
    obtain ⟨hf1, hf2, hf3⟩ := citeFactList_spec c.facts n
    obtain ⟨ih1, ih2, ih3⟩ := ih (citeFactList n c.facts).2.2
    rw [hf2] at ih1 ih2 ih3
    have hlen : n + List.countP hasLink (c.facts.flatMap (·.sources))
        = n + (List.filter hasLink (c.facts.flatMap (·.sources))).length := by
      rw [List.countP_eq_length_filter]
    refine ⟨?_, ?_, ?_⟩
    · simp only [citeCategoryList, hf1, hf2, flatSources_cons,
        List.filter_append, taggedFrom_append]
      simp only [← List.countP_eq_length_filter]
      rw [ih1]
    · simp only [citeCategoryList, hf2, ih2, flatSources_cons,
        List.countP_append]
      omega
    · simp only [citeCategoryList, hf3, hf2, ih3, flatSources_cons,
        List.filter_append]

/-- **C4.** The citation post-pass is a pure fold over the fixed traversal
(category order, fact order, source order): the citation map is exactly
the non-empty-link sources of that traversal tagged with consecutive ids,
so it depends only on the resolved sources; the ids are 1, 2, ... in
encounter order; and sources with no link pass through untouched, never
receiving an id. -/
theorem C4_citation_postpass (cats : List EnrichedCategory) :
    (citeCategoryList 1 cats).2.1
      = taggedFrom 1 ((flatSources cats).filter hasLink) ∧
    (citeCategoryList 1 cats).2.1.map Prod.fst
      = List.range' 1 ((flatSources cats).countP hasLink) ∧
    (flatSources (citeCategoryList 1 cats).1).filter (fun s => !(hasLink s))
      = (flatSources cats).filter (fun s => !(hasLink s)) := by
  obtain ⟨h1, h2, h3⟩ := citeCategoryList_spec cats 1
  refine ⟨h1, ?_, h3⟩
  rw [h1, taggedFrom_map_fst, List.countP_eq_length_filter]

/-- **C1 counterexample.** Two sources sharing one link: both receive ids
(1 and 2) and the counter advances past both, refuting idempotence per
distinct link. -/
theorem C1_same_link_two_ids_cx :
    (citeCategoryList 1 dupLinkCats).2.1.map Prod.fst = [1, 2] ∧
    (citeCategoryList 1 dupLinkCats).2.1.map (fun p => p.2.link)
      = ["https://example.com/a", "https://example.com/a"] ∧
    (citeCategoryList 1 dupLinkCats).2.2 = 3 := by
  refine ⟨?_, ?_, ?_⟩ <;> rfl

/-- **C1 (amended).** The registry does not deduplicate by link: every
encountered source with a non-empty link receives a fresh id and advances
the counter, so the assigned ids are pairwise distinct — two sources
sharing a link get two different ids. -/
theorem C1_every_link_fresh_id (cats : List EnrichedCategory) (n : ℕ) :
    ((citeCategoryList n cats).2.1.map Prod.fst).Nodup ∧
    (citeCategoryList n cats).2.2
      = n + (flatSources cats).countP hasLink := by
  obtain ⟨h1, h2, _⟩ := citeCategoryList_spec cats n
  refine ⟨?_, h2⟩
  rw [h1, taggedFrom_map_fst]
  exact List.nodup_range' _ _

/-! ## The canonical category sort -/

theorem sortOrder_nodup : sortOrder.Nodup := by decide

theorem sortOrder_key_sorted :
    sortOrder.Pairwise
      (fun a b => jsIndexOf sortOrder a ≤ jsIndexOf sortOrder b) := by
  decide

theorem jsIndexOf_inj_on (a b : String) (ha : a ∈ sortOrder)
    (hb : b ∈ sortOrder)
    (h : jsIndexOf sortOrder a = jsIndexOf sortOrder b) : a = b := by
  fin_cases ha <;> fin_cases hb <;> first
    | rfl
    | (exfalso; revert h; decide)

theorem eq_of_map_jsIndexOf_eq :
    ∀ xs ys : List String, (∀ x ∈ xs, x ∈ sortOrder) →
      (∀ y ∈ ys, y ∈ sortOrder) →
      xs.map (jsIndexOf sortOrder) = ys.map (jsIndexOf sortOrder) →
      xs = ys := by
  intro xs
  induction xs with
  | nil =>
    intro ys _ _ h
    cases ys with
    | nil => rfl
    | cons y u => simp at h
  | cons x t ih =>
    intro ys hx hy h
    cases ys with
    | nil => simp at h
    | cons y u =>
      simp only [List.map_cons, List.cons.injEq] at h
      obtain ⟨h1, h2⟩ := h
      have hxy : x = y :=
        jsIndexOf_inj_on x y (hx x (by simp)) (hy y (by simp)) h1
      have htu : t = u :=
        ih u (fun z hz => hx z (by simp [hz]))
          (fun z hz => hy z (by simp [hz])) h2
      rw [hxy, htu]

/-- **C5.** For any category sequence whose names lie in the fixed set
(with no duplicate names), the sort re-orders it into exactly the fixed
canonical display order, whatever order the provider returned: the result
is a permutation of the input whose name sequence is the canonical order
restricted to the names present. -/
theorem C5_sort_canonical (l : List RawCategory)
    (hmem : ∀ c ∈ l, c.category ∈ sortOrder)
    (hnd : (l.map (·.category)).Nodup) :
    (sortCategories l).Perm l ∧
    (sortCategories l).map (·.category)
      = sortOrder.filter (fun s => decide (s ∈ l.map (·.category))) := by
  have hperm : (sortCategories l).Perm l := List.perm_insertionSort catLE l
  refine ⟨hperm, ?_⟩
  have hnsmem : ∀ x ∈ (sortCategories l).map (·.category), x ∈ sortOrder := by
    intro x hx
    rcases List.mem_map.mp hx with ⟨c, hc, rfl⟩
    exact hmem c (hperm.mem_iff.mp hc)
  have hmsmem : ∀ x ∈ sortOrder.filter
      (fun s => decide (s ∈ l.map (·.category))), x ∈ sortOrder :=
    fun x hx => List.mem_of_mem_filter hx
  have hnsperm : ((sortCategories l).map (·.category)).Perm
      (l.map (·.category)) := hperm.map _
  have hnsnd : ((sortCategories l).map (·.category)).Nodup :=
    hnsperm.nodup_iff.mpr hnd
  have hmsnd : (sortOrder.filter
      (fun s => decide (s ∈ l.map (·.category)))).Nodup :=
    sortOrder_nodup.filter _
  have hmsperm : (sortOrder.filter
      (fun s => decide (s ∈ l.map (·.category)))).Perm
      (l.map (·.category)) := by
    rw [List.perm_ext_iff_of_nodup hmsnd hnd]
    intro a
    constructor
    · intro ha
      exact of_decide_eq_true (List.mem_filter.mp ha).2
    · intro ha
      refine List.mem_filter.mpr ⟨?_, decide_eq_true ha⟩
      rcases List.mem_map.mp ha with ⟨c, hc, rfl⟩
      exact hmem c hc
  have hperm2 : ((sortCategories l).map (·.category)).Perm
      (sortOrder.filter (fun s => decide (s ∈ l.map (·.category)))) :=
    hnsperm.trans hmsperm.symm
  have hsorted : List.Sorted catLE (sortCategories l) :=
    List.sorted_insertionSort catLE l
  have hsorted_ns : (((sortCategories l).map (·.category)).map
      (jsIndexOf sortOrder)).Sorted (· ≤ ·) := by
    rw [List.map_map]
    exact List.Pairwise.map _ (fun a b hab => hab) hsorted
  have hsorted_ms : ((sortOrder.filter
      (fun s => decide (s ∈ l.map (·.category)))).map
      (jsIndexOf sortOrder)).Sorted (· ≤ ·) :=
    List.Pairwise.map _ (fun a b hab => hab)
      (sortOrder_key_sorted.filter _)
  have himg := List.eq_of_perm_of_sorted
    (hperm2.map (jsIndexOf sortOrder)) hsorted_ns hsorted_ms
  exact eq_of_map_jsIndexOf_eq _ _ hnsmem hmsmem himg

/-- Witness for C5 at the reversed four-category list. -/
theorem C5_sort_canonical_witness :
    (sortCategories demoShuffled).Perm demoShuffled ∧
    (sortCategories demoShuffled).map (·.category)
      = sortOrder.filter
          (fun s => decide (s ∈ demoShuffled.map (·.category))) :=
  C5_sort_canonical demoShuffled (by decide) (by decide)

/-! ## The source resolver query -/

/-- **C9 counterexample.** With no year supplied the query is not the bare
fact: the template appends a space and the text `undefined`. -/
theorem C9_year_always_appended_cx :
    buildQuery "US inflation rate" none ≠ "US inflation rate" ∧
    buildQuery "US inflation rate" none = "US inflation rate undefined" := by
  refine ⟨?_, rfl⟩
  decide

/-- **C9 (amended).** The resolver is always queried with the fact string
followed by a space and the rendered year — the supplied year when
present, the text "undefined" when absent — requesting `num = 3` results;
it returns the provider items as {title, link, snippet} candidates, at
most 3 whenever the provider honors the requested `num`. -/
theorem C9_resolver_query_and_bound (oracle : SearchOracle) (fact : String)
    (year : Option ℤ)
    (honors : ∀ p : SearchParams, ∀ its : List SearchItem,
      oracle p = Except.ok its → its.length ≤ p.num) :
    buildQuery fact year = fact ++ " " ++ renderYear year ∧
    (year = none → renderYear year = "undefined") ∧
    (∀ y, year = some y → renderYear year = toString y) ∧
    (fetchRealSources oracle (buildQuery fact year)).length ≤ 3 := by
  refine ⟨rfl, ?_, ?_, ?_⟩
  · intro h; rw [h]; rfl
  · intro y h; rw [h]; rfl
  · rw [fetchRealSources]
    cases h : oracle { q := buildQuery fact year, num := 3 } with
    | ok its => simpa using honors _ its h
    | error e => simp

/-- Witness for C9 (amended) at a concrete fact and year. -/
theorem C9_resolver_query_and_bound_witness :
    buildQuery "f" (some 2020) = "f" ++ " " ++ renderYear (some 2020) ∧
    ((some 2020 : Option ℤ) = none → renderYear (some 2020) = "undefined") ∧
    (∀ y, (some 2020 : Option ℤ) = some y
      → renderYear (some 2020) = toString y) ∧
    (fetchRealSources demoErrOracle (buildQuery "f" (some 2020))).length
      ≤ 3 :=
  C9_resolver_query_and_bound demoErrOracle "f" (some 2020)
    (fun _ its h => by simp [demoErrOracle] at h)

end WhoCares
